import Mathlib

/-!
Verification of the InvestCalc investment projector
(`calculateInvestment` in `src/src/components/InstallPrompt.tsx`, App component).

The source computes in JavaScript double-precision floats; we embed the
arithmetic over exact rationals `ℚ`.  `totalMonths = years * 12` and
`monthsElapsed = year * 12` are positive integers whenever the validity
check passes, so `Math.pow(1 + monthlyRate, m)` is an integer-exponent
power and is modelled exactly by `(1 + monthlyRate) ^ m` on `ℚ`.

One semantic caveat is recorded where it matters: on the zero-rate path
(`annualReturn = 0`) the source divides by `monthlyRate = 0`.  In IEEE
floats `0/0` is `NaN`; in Lean's `ℚ` division by zero yields `0`.  Both
are junk values, and the theorems about that path only assert facts that
hold under either reading (the result is not the finite limit value the
spec demands).
-/

namespace InvestCalc

/-- One entry of `yearlyBreakdown` (source lines 143-149). -/
structure YearRecord where
  year : ℕ
  totalValue : ℚ
  totalInvested : ℚ
  initialCapital : ℚ
  profit : ℚ
deriving DecidableEq

/-- The `CalculationResult` interface of the source (lines 88-100). -/
structure CalculationResult where
  monthlyInvestment : ℚ
  totalInvested : ℚ
  initialCapital : ℚ
  totalProfit : ℚ
  yearlyBreakdown : List YearRecord
deriving DecidableEq

/-- `monthlyRate = annualReturn / 100 / 12` (source line 115). -/
def monthlyRate (annualReturn : ℚ) : ℚ :=
  annualReturn / 100 / 12

/-- `totalMonths = years * 12` (source line 116), as the natural-number
exponent fed to `Math.pow`.  For `years > 0` this is `years * 12` exactly. -/
def totalMonthsNat (years : ℤ) : ℕ :=
  (years * 12).toNat

/-- The annuity denominator `((1 + r)^m - 1) / r` (source lines 127 and 139). -/
def annuityFactor (r : ℚ) (m : ℕ) : ℚ :=
  ((1 + r) ^ m - 1) / r

/-- `initialCapital * Math.pow(1 + monthlyRate, m)` (source lines 119 and 138). -/
def futureValueOfInitial (initialCapital r : ℚ) (m : ℕ) : ℚ :=
  initialCapital * (1 + r) ^ m

/-- `remainingAmount = targetAmount - futureValueOfInitial` (source line 122). -/
def remainingAmount (years : ℤ) (targetAmount annualReturn initialCapital : ℚ) : ℚ :=
  targetAmount - futureValueOfInitial initialCapital (monthlyRate annualReturn) (totalMonthsNat years)

/-- The required monthly payment (source lines 126-128):
`remainingAmount > 0 ? remainingAmount / (((1+r)^n - 1) / r) : 0`. -/
def monthlyInvestment (years : ℤ) (targetAmount annualReturn initialCapital : ℚ) : ℚ :=
  if remainingAmount years targetAmount annualReturn initialCapital > 0 then
    remainingAmount years targetAmount annualReturn initialCapital /
      annuityFactor (monthlyRate annualReturn) (totalMonthsNat years)
  else 0

/-- The record pushed for a given `year` of the breakdown loop
(source lines 135-149), with `monthsElapsed = year * 12`. -/
def yearRecord (years : ℤ) (targetAmount annualReturn initialCapital : ℚ)
    (year : ℕ) : YearRecord :=
  { year := year
    totalValue :=
      futureValueOfInitial initialCapital (monthlyRate annualReturn) (year * 12) +
        monthlyInvestment years targetAmount annualReturn initialCapital *
          annuityFactor (monthlyRate annualReturn) (year * 12)
    totalInvested :=
      monthlyInvestment years targetAmount annualReturn initialCapital * ((year * 12 : ℕ) : ℚ)
    initialCapital := initialCapital
    profit :=
      (futureValueOfInitial initialCapital (monthlyRate annualReturn) (year * 12) +
        monthlyInvestment years targetAmount annualReturn initialCapital *
          annuityFactor (monthlyRate annualReturn) (year * 12)) -
      monthlyInvestment years targetAmount annualReturn initialCapital * ((year * 12 : ℕ) : ℚ) -
      initialCapital }

/-- The breakdown loop `for (let year = 1; year <= years; year++)`
(source lines 134-150). -/
def yearlyBreakdown (years : ℤ) (targetAmount annualReturn initialCapital : ℚ) :
    List YearRecord :=
  (List.range years.toNat).map
    (fun i => yearRecord years targetAmount annualReturn initialCapital (i + 1))

/-- The full result object produced on the valid path (source lines 115-158). -/
def computeResult (years : ℤ) (targetAmount annualReturn initialCapital : ℚ) :
    CalculationResult :=
  { monthlyInvestment := monthlyInvestment years targetAmount annualReturn initialCapital
    totalInvested :=
      monthlyInvestment years targetAmount annualReturn initialCapital *
        ((totalMonthsNat years : ℕ) : ℚ)
    initialCapital := initialCapital
    totalProfit :=
      targetAmount -
        monthlyInvestment years targetAmount annualReturn initialCapital *
          ((totalMonthsNat years : ℕ) : ℚ) -
        initialCapital
    yearlyBreakdown := yearlyBreakdown years targetAmount annualReturn initialCapital }

/-- `calculateInvestment` (source lines 109-159): the guard
`years <= 0 || targetAmount <= 0 || annualReturn < 0 || initialCapital < 0`
clears the result (`setResult(null)`; modelled as `none`); otherwise the
computed result is stored (`setResult(...)`; modelled as `some`). -/
def calculateInvestment (years : ℤ) (targetAmount annualReturn initialCapital : ℚ) :
    Option CalculationResult :=
  if years ≤ 0 ∨ targetAmount ≤ 0 ∨ annualReturn < 0 ∨ initialCapital < 0 then
    none
  else
    some (computeResult years targetAmount annualReturn initialCapital)

/-! ### Basic helper lemmas -/

theorem monthlyRate_pos {a : ℚ} (ha : 0 < a) : 0 < monthlyRate a := by
  unfold monthlyRate
  positivity

theorem monthlyRate_nonneg {a : ℚ} (ha : 0 ≤ a) : 0 ≤ monthlyRate a := by
  unfold monthlyRate
  positivity

theorem monthlyRate_le_monthlyRate {a b : ℚ} (h : a ≤ b) : monthlyRate a ≤ monthlyRate b := by
  unfold monthlyRate
  have h1 : a / 100 ≤ b / 100 := by linarith
  linarith

theorem totalMonthsNat_pos {y : ℤ} (hy : 0 < y) : 0 < totalMonthsNat y := by
  unfold totalMonthsNat
  omega

theorem totalMonthsNat_eq {y : ℤ} (hy : 0 < y) : totalMonthsNat y = y.toNat * 12 := by
  unfold totalMonthsNat
  omega

theorem yearlyBreakdown_length (y : ℤ) (t a c : ℚ) :
    (yearlyBreakdown y t a c).length = y.toNat := by
  simp [yearlyBreakdown]

theorem yearlyBreakdown_get (y : ℤ) (t a c : ℚ) (i : ℕ)
    (h : i < (yearlyBreakdown y t a c).length) :
    (yearlyBreakdown y t a c).get ⟨i, h⟩ = yearRecord y t a c (i + 1) := by
  simp [yearlyBreakdown]

/-- For nonzero rate the annuity factor is the geometric sum `∑_{i<m} (1+r)^i`. -/
theorem annuityFactor_eq_geomSum {r : ℚ} (hr : r ≠ 0) (m : ℕ) :
    annuityFactor r m = ∑ i in Finset.range m, (1 + r) ^ i := by
  have hx : (1 : ℚ) + r ≠ 1 := by
    intro h
    exact hr (by linarith)
  rw [annuityFactor, geom_sum_eq hx m]
  ring_nf

theorem annuityFactor_nonneg {r : ℚ} (hr : 0 < r) (m : ℕ) :
    0 ≤ annuityFactor r m := by
  rw [annuityFactor_eq_geomSum hr.ne' m]
  apply Finset.sum_nonneg
  intro i _
  positivity

theorem annuityFactor_pos {r : ℚ} (hr : 0 < r) {m : ℕ} (hm : 0 < m) :
    0 < annuityFactor r m := by
  rw [annuityFactor_eq_geomSum hr.ne' m]
  apply Finset.sum_pos
  · intro i _
    positivity
  · exact Finset.nonempty_range_iff.mpr hm.ne'

/-- Each geometric-sum term is at least `1`, so the annuity factor dominates
the month count: `m ≤ ((1+r)^m - 1)/r` for `r > 0`. -/
theorem le_annuityFactor {r : ℚ} (hr : 0 < r) (m : ℕ) :
    (m : ℚ) ≤ annuityFactor r m := by
  rw [annuityFactor_eq_geomSum hr.ne' m]
  calc (m : ℚ) = ∑ _i in Finset.range m, (1 : ℚ) := by simp
    _ ≤ ∑ i in Finset.range m, (1 + r) ^ i := by
        apply Finset.sum_le_sum
        intro i _
        exact one_le_pow₀ (by linarith)

/-- The annuity factor is monotone in the rate (each geometric-sum term is). -/
theorem annuityFactor_mono_rate {r₁ r₂ : ℚ} (h₁ : 0 < r₁) (h₁₂ : r₁ ≤ r₂) (m : ℕ) :
    annuityFactor r₁ m ≤ annuityFactor r₂ m := by
  rw [annuityFactor_eq_geomSum h₁.ne' m,
    annuityFactor_eq_geomSum (by linarith : r₂ ≠ 0) m]
  apply Finset.sum_le_sum
  intro i _
  exact pow_le_pow_left₀ (by linarith) (by linarith) i

/-- The annuity factor is strictly monotone in the number of months for `r > 0`. -/
theorem annuityFactor_strictMono_months {r : ℚ} (hr : 0 < r) {m₁ m₂ : ℕ}
    (h : m₁ < m₂) : annuityFactor r m₁ < annuityFactor r m₂ := by
  rw [annuityFactor_eq_geomSum hr.ne' m₁, annuityFactor_eq_geomSum hr.ne' m₂]
  apply Finset.sum_lt_sum_of_subset (Finset.range_subset.mpr h.le)
    (Finset.mem_range.mpr h) (by simp)
  · positivity
  · intro j _ _
    positivity

theorem monthlyInvestment_nonneg {y : ℤ} {t a c : ℚ} (ha : 0 < a) :
    0 ≤ monthlyInvestment y t a c := by
  unfold monthlyInvestment
  split
  · next hrem =>
    apply div_nonneg (le_of_lt hrem)
    exact annuityFactor_nonneg (monthlyRate_pos ha) _
  · exact le_refl 0

theorem monthlyInvestment_pos {y : ℤ} {t a c : ℚ} (ha : 0 < a) (hy : 0 < y)
    (hrem : 0 < remainingAmount y t a c) : 0 < monthlyInvestment y t a c := by
  unfold monthlyInvestment
  rw [if_pos hrem]
  exact div_pos hrem (annuityFactor_pos (monthlyRate_pos ha) (totalMonthsNat_pos hy))

theorem yearlyBreakdown_getElem (y : ℤ) (t a c : ℚ) (i : ℕ) :
    (yearlyBreakdown y t a c)[i]? =
      if i < y.toNat then some (yearRecord y t a c (i + 1)) else none := by
  rw [yearlyBreakdown, List.getElem?_map]
  by_cases hi : i < y.toNat
  · rw [if_pos hi]
    have hr : (List.range y.toNat)[i]? = some i := by
      simp [List.getElem?_range, hi]
    rw [hr]
    rfl
  · rw [if_neg hi]
    have hr : (List.range y.toNat)[i]? = none := by
      simp only [List.getElem?_eq_none_iff, List.length_range]
      omega
    rw [hr]
    rfl

/-! ### Claim theorems -/

/-- Claim C3: `calculateInvestment` yields the no-result signal exactly when
`years ≤ 0`, `targetAmount ≤ 0`, `annualReturn < 0` or `initialCapital < 0`;
on every other input it stores exactly the computed result. -/
theorem calculateInvestment_none_iff (y : ℤ) (t a c : ℚ) :
    (calculateInvestment y t a c = none ↔
      y ≤ 0 ∨ t ≤ 0 ∨ a < 0 ∨ c < 0) ∧
    (0 < y → 0 < t → 0 ≤ a → 0 ≤ c →
      calculateInvestment y t a c = some (computeResult y t a c)) := by
  constructor
  · unfold calculateInvestment
    by_cases h : y ≤ 0 ∨ t ≤ 0 ∨ a < 0 ∨ c < 0
    · simp [h]
    · simp [h]
  · intro hy ht ha hc
    unfold calculateInvestment
    rw [if_neg]
    push_neg
    exact ⟨hy, ht, ha, hc⟩

/-- Witness for C3: the four invalidity probes of the spec each give `none`,
and a valid input gives `some`. -/
theorem calculateInvestment_none_iff_probe :
    calculateInvestment 0 1000 10 0 = none ∧
    calculateInvestment 1 0 10 0 = none ∧
    calculateInvestment 1 1000 (-1) 0 = none ∧
    calculateInvestment 1 1000 10 (-1) = none ∧
    calculateInvestment 1 1200 12 0 = some (computeResult 1 1200 12 0) :=
  ⟨(calculateInvestment_none_iff 0 1000 10 0).1.mpr (Or.inl le_rfl),
   (calculateInvestment_none_iff 1 0 10 0).1.mpr (Or.inr (Or.inl le_rfl)),
   (calculateInvestment_none_iff 1 1000 (-1) 0).1.mpr
     (Or.inr (Or.inr (Or.inl (by norm_num)))),
   (calculateInvestment_none_iff 1 1000 10 (-1)).1.mpr
     (Or.inr (Or.inr (Or.inr (by norm_num)))),
   (calculateInvestment_none_iff 1 1200 12 0).2 (by norm_num) (by norm_num)
     (by norm_num) (by norm_num)⟩

/-- Claim C9: every year record satisfies
`profit = totalValue - totalInvested - initialCapital` exactly. -/
theorem profit_identity (y : ℤ) (t a c : ℚ) (e : YearRecord)
    (he : e ∈ (computeResult y t a c).yearlyBreakdown) :
    e.profit = e.totalValue - e.totalInvested - e.initialCapital := by
  have he' : e ∈ (List.range y.toNat).map (fun i => yearRecord y t a c (i + 1)) := he
  rw [List.mem_map] at he'
  obtain ⟨i, _, rfl⟩ := he'
  rfl

/-- Witness for C9 at `years = 1, targetAmount = 1200, annualReturn = 12,
initialCapital = 0`. -/
theorem profit_identity_probe :
    yearRecord 1 1200 12 0 1 ∈ (computeResult 1 1200 12 0).yearlyBreakdown ∧
    (yearRecord 1 1200 12 0 1).profit =
      (yearRecord 1 1200 12 0 1).totalValue -
        (yearRecord 1 1200 12 0 1).totalInvested -
        (yearRecord 1 1200 12 0 1).initialCapital := by
  have hm : yearRecord 1 1200 12 0 1 ∈ (computeResult 1 1200 12 0).yearlyBreakdown := by
    show yearRecord 1 1200 12 0 1 ∈
      (List.range (1 : ℤ).toNat).map (fun i => yearRecord 1 1200 12 0 (i + 1))
    exact List.mem_map.mpr ⟨0, by simp, rfl⟩
  exact ⟨hm, profit_identity 1 1200 12 0 _ hm⟩

/-- Claim C8: the breakdown has exactly `years` entries; the entry at index
`i` (year `i + 1`) carries `year = i + 1`, cumulative
`totalInvested = monthlyInvestment * ((i + 1) * 12)`, and the input
`initialCapital`. -/
theorem breakdown_shape (y : ℤ) (t a c : ℚ) (hy : 0 < y) (ht : 0 < t)
    (ha : 0 ≤ a) (hc : 0 ≤ c) (i : ℕ) (e : YearRecord)
    (hget : ((computeResult y t a c).yearlyBreakdown)[i]? = some e) :
    ((computeResult y t a c).yearlyBreakdown).length = y.toNat ∧
    e.year = i + 1 ∧
    e.totalInvested =
      (computeResult y t a c).monthlyInvestment * (((i + 1) * 12 : ℕ) : ℚ) ∧
    e.initialCapital = c := by
  have hg : (yearlyBreakdown y t a c)[i]? = some e := hget
  rw [yearlyBreakdown_getElem] at hg
  by_cases hi : i < y.toNat
  · rw [if_pos hi] at hg
    obtain rfl : yearRecord y t a c (i + 1) = e := by simpa using hg
    exact ⟨yearlyBreakdown_length y t a c, rfl, rfl, rfl⟩
  · rw [if_neg hi] at hg
    exact absurd hg (by simp)

/-- Witness for C8 at `years = 2` and index `1` (the second year's record). -/
theorem breakdown_shape_probe :
    ((computeResult 2 1200 12 0).yearlyBreakdown)[1]? =
      some (yearRecord 2 1200 12 0 2) ∧
    (((computeResult 2 1200 12 0).yearlyBreakdown).length = (2 : ℤ).toNat ∧
     (yearRecord 2 1200 12 0 2).year = 1 + 1 ∧
     (yearRecord 2 1200 12 0 2).totalInvested =
       (computeResult 2 1200 12 0).monthlyInvestment * (((1 + 1) * 12 : ℕ) : ℚ) ∧
     (yearRecord 2 1200 12 0 2).initialCapital = 0) := by
  have hg : ((computeResult 2 1200 12 0).yearlyBreakdown)[1]? =
      some (yearRecord 2 1200 12 0 2) := by
    show (yearlyBreakdown 2 1200 12 0)[1]? = _
    rw [yearlyBreakdown_getElem]
    norm_num
  exact ⟨hg, breakdown_shape 2 1200 12 0 (by norm_num) (by norm_num) (by norm_num)
    (by norm_num) 1 _ hg⟩

/-- Claim C1 (behaviour of the code at the failing input): at
`years = 1, targetAmount = 1200, annualReturn = 0, initialCapital = 0`
the annuity denominator is `((1 + 0)^12 - 1) / 0`, a division by zero
(`NaN` in the source's floats, junk `0` under `ℚ` semantics), not the
limit value `totalMonths = 12`; consequently `monthlyInvestment` is not
the claimed `(1200 - 0) / 12 = 100`. -/
theorem zeroRate_divides_by_zero :
    monthlyRate 0 = 0 ∧
    totalMonthsNat 1 = 12 ∧
    annuityFactor (monthlyRate 0) (totalMonthsNat 1) = 0 ∧
    (computeResult 1 1200 0 0).monthlyInvestment = 0 ∧
    (computeResult 1 1200 0 0).monthlyInvestment ≠ (1200 - 0) / 12 := by
  have h0 : monthlyRate 0 = 0 := by norm_num [monthlyRate]
  have h1 : totalMonthsNat 1 = 12 := by decide
  have h2 : annuityFactor (monthlyRate 0) (totalMonthsNat 1) = 0 := by
    rw [h0, h1, annuityFactor]
    norm_num
  have h3 : (computeResult 1 1200 0 0).monthlyInvestment = 0 := by
    show monthlyInvestment 1 1200 0 0 = 0
    rw [monthlyInvestment]
    split
    · rw [h2, div_zero]
    · rfl
  refine ⟨h0, h1, h2, h3, ?_⟩
  rw [h3]
  norm_num

/-- Claim C4: on valid inputs with positive remaining amount, the stored
result satisfies the source's annuity formulas, with
`r = annualReturn / 100 / 12` and `n = years * 12`. -/
theorem result_formulas (y : ℤ) (t a c : ℚ) (hy : 0 < y) (ht : 0 < t)
    (ha : 0 ≤ a) (hc : 0 ≤ c)
    (hrem : 0 < t - c * (1 + monthlyRate a) ^ totalMonthsNat y) :
    ((totalMonthsNat y : ℤ) = y * 12) ∧
    (computeResult y t a c).monthlyInvestment =
      (t - c * (1 + monthlyRate a) ^ totalMonthsNat y) /
        (((1 + monthlyRate a) ^ totalMonthsNat y - 1) / monthlyRate a) ∧
    (computeResult y t a c).totalInvested =
      (computeResult y t a c).monthlyInvestment * ((totalMonthsNat y : ℕ) : ℚ) ∧
    (computeResult y t a c).totalProfit =
      t - (computeResult y t a c).totalInvested - c := by
  have hrem' : 0 < remainingAmount y t a c := by
    simpa [remainingAmount, futureValueOfInitial] using hrem
  refine ⟨by unfold totalMonthsNat; omega, ?_, rfl, rfl⟩
  show monthlyInvestment y t a c = _
  rw [monthlyInvestment, if_pos hrem']
  rfl

/-- Witness for C4 at `years = 1, targetAmount = 1200, annualReturn = 12,
initialCapital = 0`. -/
theorem result_formulas_probe :
    (0 : ℚ) < 1200 - 0 * (1 + monthlyRate 12) ^ totalMonthsNat 1 ∧
    (((totalMonthsNat 1 : ℤ) = 1 * 12) ∧
     (computeResult 1 1200 12 0).monthlyInvestment =
       (1200 - 0 * (1 + monthlyRate 12) ^ totalMonthsNat 1) /
         (((1 + monthlyRate 12) ^ totalMonthsNat 1 - 1) / monthlyRate 12) ∧
     (computeResult 1 1200 12 0).totalInvested =
       (computeResult 1 1200 12 0).monthlyInvestment * ((totalMonthsNat 1 : ℕ) : ℚ) ∧
     (computeResult 1 1200 12 0).totalProfit =
       1200 - (computeResult 1 1200 12 0).totalInvested - 0) := by
  have hrem : (0 : ℚ) < 1200 - 0 * (1 + monthlyRate 12) ^ totalMonthsNat 1 := by
    norm_num
  exact ⟨hrem, result_formulas 1 1200 12 0 (by norm_num) (by norm_num) (by norm_num)
    (by norm_num) hrem⟩

/-- Counterexample to claim C2 as stated: the valid input
`years = 1, targetAmount = 100, annualReturnPercent = 12, initialCapital = 200`
(initial capital alone exceeds the target, so `monthlyInvestment = 0`)
produces `totalProfit = 100 - 0 - 200 = -100 < 0`. -/
theorem totalProfit_negative_example :
    (0 : ℤ) < 1 ∧ (0 : ℚ) < 100 ∧ (0 : ℚ) ≤ 12 ∧ (0 : ℚ) ≤ 200 ∧
    (computeResult 1 100 12 200).totalProfit < 0 := by
  refine ⟨by norm_num, by norm_num, by norm_num, by norm_num, ?_⟩
  have hpow : (1 : ℚ) ≤ (1 + monthlyRate 12) ^ totalMonthsNat 1 :=
    one_le_pow₀ (by norm_num [monthlyRate])
  have hrem : ¬ (0 < remainingAmount 1 100 12 200) := by
    simp only [remainingAmount, futureValueOfInitial, not_lt]
    nlinarith
  show (100 : ℚ) - monthlyInvestment 1 100 12 200 * _ - 200 < 0
  rw [monthlyInvestment, if_neg hrem]
  norm_num

/-- Claim C2 (amended): for valid inputs with a positive rate,
`monthlyInvestment`, `totalInvested` and every year record's `totalValue`,
`totalInvested` and `profit` are non-negative, and — provided
`initialCapital ≤ targetAmount` — `totalProfit` is non-negative as well
(when the compounded initial capital alone covers the target,
`totalProfit = targetAmount - initialCapital`, which the counterexample
shows can be negative for `initialCapital > targetAmount`). -/
theorem outputs_nonneg (y : ℤ) (t a c : ℚ) (hy : 0 < y) (ht : 0 < t)
    (ha : 0 < a) (hc : 0 ≤ c) (e : YearRecord)
    (he : e ∈ (computeResult y t a c).yearlyBreakdown) :
    0 ≤ (computeResult y t a c).monthlyInvestment ∧
    0 ≤ (computeResult y t a c).totalInvested ∧
    0 ≤ e.totalValue ∧ 0 ≤ e.totalInvested ∧ 0 ≤ e.profit ∧
    (c ≤ t → 0 ≤ (computeResult y t a c).totalProfit) := by
  have hr : 0 < monthlyRate a := monthlyRate_pos ha
  have hP : 0 ≤ monthlyInvestment y t a c := monthlyInvestment_nonneg ha
  have he' : e ∈ (List.range y.toNat).map (fun i => yearRecord y t a c (i + 1)) := he
  rw [List.mem_map] at he'
  obtain ⟨i, _, rfl⟩ := he'
  have hpow : (1 : ℚ) ≤ (1 + monthlyRate a) ^ ((i + 1) * 12) :=
    one_le_pow₀ (by linarith)
  have hA : (((i + 1) * 12 : ℕ) : ℚ) ≤ annuityFactor (monthlyRate a) ((i + 1) * 12) :=
    le_annuityFactor hr _
  have hA0 : 0 ≤ annuityFactor (monthlyRate a) ((i + 1) * 12) :=
    annuityFactor_nonneg hr _
  refine ⟨hP, mul_nonneg hP (by positivity), ?_, ?_, ?_, ?_⟩
  · show 0 ≤ futureValueOfInitial c (monthlyRate a) ((i + 1) * 12) +
      monthlyInvestment y t a c * annuityFactor (monthlyRate a) ((i + 1) * 12)
    have h1 : 0 ≤ futureValueOfInitial c (monthlyRate a) ((i + 1) * 12) := by
      unfold futureValueOfInitial
      positivity
    nlinarith [mul_nonneg hP hA0]
  · exact mul_nonneg hP (by positivity)
  · show 0 ≤ futureValueOfInitial c (monthlyRate a) ((i + 1) * 12) +
      monthlyInvestment y t a c * annuityFactor (monthlyRate a) ((i + 1) * 12) -
      monthlyInvestment y t a c * (((i + 1) * 12 : ℕ) : ℚ) - c
    unfold futureValueOfInitial
    nlinarith [mul_nonneg hc (sub_nonneg.mpr hpow),
      mul_nonneg hP (sub_nonneg.mpr hA)]
  · intro hct
    show 0 ≤ t - monthlyInvestment y t a c * ((totalMonthsNat y : ℕ) : ℚ) - c
    have hApos : 0 < annuityFactor (monthlyRate a) (totalMonthsNat y) :=
      annuityFactor_pos hr (totalMonthsNat_pos hy)
    have hAN : ((totalMonthsNat y : ℕ) : ℚ) ≤ annuityFactor (monthlyRate a) (totalMonthsNat y) :=
      le_annuityFactor hr _
    have hpowN : (1 : ℚ) ≤ (1 + monthlyRate a) ^ totalMonthsNat y :=
      one_le_pow₀ (by linarith)
    by_cases hrem : 0 < remainingAmount y t a c
    · have hq : 0 ≤ remainingAmount y t a c / annuityFactor (monthlyRate a) (totalMonthsNat y) :=
        div_nonneg hrem.le hApos.le
      have hmul : remainingAmount y t a c / annuityFactor (monthlyRate a) (totalMonthsNat y) *
          annuityFactor (monthlyRate a) (totalMonthsNat y) = remainingAmount y t a c :=
        div_mul_cancel₀ _ hApos.ne'
      have h1 : monthlyInvestment y t a c * ((totalMonthsNat y : ℕ) : ℚ) ≤
          remainingAmount y t a c := by
        rw [monthlyInvestment, if_pos hrem]
        calc remainingAmount y t a c / annuityFactor (monthlyRate a) (totalMonthsNat y) *
              ((totalMonthsNat y : ℕ) : ℚ)
            ≤ remainingAmount y t a c / annuityFactor (monthlyRate a) (totalMonthsNat y) *
              annuityFactor (monthlyRate a) (totalMonthsNat y) :=
              mul_le_mul_of_nonneg_left hAN hq
          _ = remainingAmount y t a c := hmul
      have h2 : c ≤ c * (1 + monthlyRate a) ^ totalMonthsNat y :=
        le_mul_of_one_le_right hc hpowN
      have h3 : remainingAmount y t a c =
          t - c * (1 + monthlyRate a) ^ totalMonthsNat y := rfl
      linarith
    · rw [monthlyInvestment, if_neg hrem]
      simp only [zero_mul]
      linarith

/-- Witness for the amended C2 at
`years = 1, targetAmount = 1200, annualReturn = 12, initialCapital = 100`. -/
theorem outputs_nonneg_probe :
    yearRecord 1 1200 12 100 1 ∈ (computeResult 1 1200 12 100).yearlyBreakdown ∧
    (0 ≤ (computeResult 1 1200 12 100).monthlyInvestment ∧
     0 ≤ (computeResult 1 1200 12 100).totalInvested ∧
     0 ≤ (yearRecord 1 1200 12 100 1).totalValue ∧
     0 ≤ (yearRecord 1 1200 12 100 1).totalInvested ∧
     0 ≤ (yearRecord 1 1200 12 100 1).profit ∧
     ((100 : ℚ) ≤ 1200 → 0 ≤ (computeResult 1 1200 12 100).totalProfit)) := by
  have hm : yearRecord 1 1200 12 100 1 ∈ (computeResult 1 1200 12 100).yearlyBreakdown := by
    show yearRecord 1 1200 12 100 1 ∈
      (List.range (1 : ℤ).toNat).map (fun i => yearRecord 1 1200 12 100 (i + 1))
    exact List.mem_map.mpr ⟨0, by simp, rfl⟩
  exact ⟨hm, outputs_nonneg 1 1200 12 100 (by norm_num) (by norm_num) (by norm_num)
    (by norm_num) _ hm⟩

/-- Claim C5: when the compounded initial capital meets or exceeds the
target, the required monthly investment is `0`, and the final year record's
`totalValue` is at least the target — strictly greater when the compounded
capital strictly exceeds it. -/
theorem initial_sufficient (y : ℤ) (t a c : ℚ) (hy : 0 < y) (ht : 0 < t)
    (ha : 0 ≤ a) (hc : 0 ≤ c)
    (hsuff : t ≤ c * (1 + monthlyRate a) ^ totalMonthsNat y) (e : YearRecord)
    (hget : ((computeResult y t a c).yearlyBreakdown)[y.toNat - 1]? = some e) :
    (computeResult y t a c).monthlyInvestment = 0 ∧
    t ≤ e.totalValue ∧
    (t < c * (1 + monthlyRate a) ^ totalMonthsNat y → t < e.totalValue) := by
  have hrem : ¬ (0 < remainingAmount y t a c) := by
    simp only [remainingAmount, futureValueOfInitial, not_lt]
    linarith
  have hP : monthlyInvestment y t a c = 0 := by
    rw [monthlyInvestment, if_neg hrem]
  have hg : (yearlyBreakdown y t a c)[y.toNat - 1]? = some e := hget
  rw [yearlyBreakdown_getElem, if_pos (by omega : y.toNat - 1 < y.toNat)] at hg
  have hsucc : y.toNat - 1 + 1 = y.toNat := by omega
  rw [hsucc] at hg
  obtain rfl : yearRecord y t a c y.toNat = e := by simpa using hg
  have htv : (yearRecord y t a c y.toNat).totalValue =
      c * (1 + monthlyRate a) ^ totalMonthsNat y := by
    show futureValueOfInitial c (monthlyRate a) (y.toNat * 12) +
        monthlyInvestment y t a c * annuityFactor (monthlyRate a) (y.toNat * 12) = _
    rw [hP, zero_mul, add_zero, futureValueOfInitial, totalMonthsNat_eq hy]
  refine ⟨hP, ?_, ?_⟩
  · rw [htv]; exact hsuff
  · intro hstrict
    rw [htv]; exact hstrict

/-- Witness for C5 at the spec's concrete scenario
`years = 10, targetAmount = 200000, annualReturn = 8, initialCapital = 200000`. -/
theorem initial_sufficient_probe :
    (200000 : ℚ) ≤ 200000 * (1 + monthlyRate 8) ^ totalMonthsNat 10 ∧
    ((computeResult 10 200000 8 200000).yearlyBreakdown)[(10 : ℤ).toNat - 1]? =
      some (yearRecord 10 200000 8 200000 10) ∧
    ((computeResult 10 200000 8 200000).monthlyInvestment = 0 ∧
     (200000 : ℚ) ≤ (yearRecord 10 200000 8 200000 10).totalValue ∧
     ((200000 : ℚ) < 200000 * (1 + monthlyRate 8) ^ totalMonthsNat 10 →
       (200000 : ℚ) < (yearRecord 10 200000 8 200000 10).totalValue)) := by
  have hpow : (1 : ℚ) ≤ (1 + monthlyRate 8) ^ totalMonthsNat 10 :=
    one_le_pow₀ (by norm_num [monthlyRate])
  have hsuff : (200000 : ℚ) ≤ 200000 * (1 + monthlyRate 8) ^ totalMonthsNat 10 := by
    nlinarith
  have hg : ((computeResult 10 200000 8 200000).yearlyBreakdown)[(10 : ℤ).toNat - 1]? =
      some (yearRecord 10 200000 8 200000 10) := by
    show (yearlyBreakdown 10 200000 8 200000)[(10 : ℤ).toNat - 1]? = _
    rw [yearlyBreakdown_getElem]
    norm_num
    rfl
  exact ⟨hsuff, hg, initial_sufficient 10 200000 8 200000 (by norm_num) (by norm_num)
    (by norm_num) (by norm_num) hsuff _ hg⟩

/-- Claim C6: the final year record's `totalValue` is exactly the value of
the compounding-plus-annuity formula at `monthsElapsed = totalMonths`
(exact equality of the rational model, hence within any tolerance), and when
`monthlyInvestment > 0` it equals `targetAmount` exactly. -/
theorem final_year_consistency (y : ℤ) (t a c : ℚ) (hy : 0 < y) (ht : 0 < t)
    (ha : 0 ≤ a) (hc : 0 ≤ c) (e : YearRecord)
    (hget : ((computeResult y t a c).yearlyBreakdown)[y.toNat - 1]? = some e) :
    e.totalValue =
      futureValueOfInitial c (monthlyRate a) (totalMonthsNat y) +
        monthlyInvestment y t a c * annuityFactor (monthlyRate a) (totalMonthsNat y) ∧
    (0 < (computeResult y t a c).monthlyInvestment → e.totalValue = t) := by
  have hg : (yearlyBreakdown y t a c)[y.toNat - 1]? = some e := hget
  rw [yearlyBreakdown_getElem, if_pos (by omega : y.toNat - 1 < y.toNat)] at hg
  have hsucc : y.toNat - 1 + 1 = y.toNat := by omega
  rw [hsucc] at hg
  obtain rfl : yearRecord y t a c y.toNat = e := by simpa using hg
  have htv : (yearRecord y t a c y.toNat).totalValue =
      futureValueOfInitial c (monthlyRate a) (totalMonthsNat y) +
        monthlyInvestment y t a c * annuityFactor (monthlyRate a) (totalMonthsNat y) := by
    show futureValueOfInitial c (monthlyRate a) (y.toNat * 12) +
        monthlyInvestment y t a c * annuityFactor (monthlyRate a) (y.toNat * 12) = _
    rw [totalMonthsNat_eq hy]
  refine ⟨htv, ?_⟩
  intro hP
  have hP' : 0 < monthlyInvestment y t a c := hP
  by_cases hrem : 0 < remainingAmount y t a c
  · have hPeq : monthlyInvestment y t a c =
        remainingAmount y t a c / annuityFactor (monthlyRate a) (totalMonthsNat y) := by
      rw [monthlyInvestment, if_pos hrem]
    have hA0 : annuityFactor (monthlyRate a) (totalMonthsNat y) ≠ 0 := by
      intro h
      rw [hPeq, h, div_zero] at hP'
      exact lt_irrefl 0 hP'
    rw [htv, hPeq, div_mul_cancel₀ _ hA0]
    have h3 : remainingAmount y t a c =
        t - futureValueOfInitial c (monthlyRate a) (totalMonthsNat y) := rfl
    linarith
  · rw [monthlyInvestment, if_neg hrem] at hP'
    exact absurd hP' (lt_irrefl 0)

/-- Witness for C6 at `years = 1, targetAmount = 1200, annualReturn = 12,
initialCapital = 0`: the final-year value reconstructs the target exactly. -/
theorem final_year_consistency_probe :
    ((computeResult 1 1200 12 0).yearlyBreakdown)[(1 : ℤ).toNat - 1]? =
      some (yearRecord 1 1200 12 0 1) ∧
    ((yearRecord 1 1200 12 0 1).totalValue =
      futureValueOfInitial 0 (monthlyRate 12) (totalMonthsNat 1) +
        monthlyInvestment 1 1200 12 0 * annuityFactor (monthlyRate 12) (totalMonthsNat 1) ∧
     (0 < (computeResult 1 1200 12 0).monthlyInvestment →
       (yearRecord 1 1200 12 0 1).totalValue = 1200)) := by
  have hg : ((computeResult 1 1200 12 0).yearlyBreakdown)[(1 : ℤ).toNat - 1]? =
      some (yearRecord 1 1200 12 0 1) := by
    show (yearlyBreakdown 1 1200 12 0)[(1 : ℤ).toNat - 1]? = _
    rw [yearlyBreakdown_getElem]
    norm_num
  exact ⟨hg, final_year_consistency 1 1200 12 0 (by norm_num) (by norm_num)
    (by norm_num) (by norm_num) _ hg⟩

/-- Counterexample to claim C7 as stated: include the zero-rate endpoint and
monotonicity fails. At `years = 1, targetAmount = 1200, initialCapital = 0`,
rate `0` takes the division-by-zero path (junk value; `NaN` in the source's
floats), while rate `12` gives a positive `monthlyInvestment`, so the value
at the higher rate is not `≤` the value at rate `0`. -/
theorem monotonicity_fails_at_zero_rate :
    (0 : ℚ) ≤ 0 ∧ (0 : ℚ) ≤ 12 ∧
    ¬ (monthlyInvestment 1 1200 12 0 ≤ monthlyInvestment 1 1200 0 0) := by
  refine ⟨le_rfl, by norm_num, ?_⟩
  have hr0 : monthlyRate 0 = 0 := by norm_num [monthlyRate]
  have h0 : monthlyInvestment 1 1200 0 0 = 0 := by
    rw [monthlyInvestment]
    split
    · rw [hr0]
      simp [annuityFactor]
    · rfl
  have hpos : 0 < monthlyInvestment 1 1200 12 0 := by
    apply monthlyInvestment_pos (by norm_num) (by norm_num)
    show (0 : ℚ) < 1200 - futureValueOfInitial 0 (monthlyRate 12) (totalMonthsNat 1)
    norm_num [futureValueOfInitial]
  rw [h0]
  exact not_le.mpr hpos

/-- Claim C7 (amended): for fixed valid `years`, `targetAmount` and
`initialCapital`, and positive rates `0 < a₁ ≤ a₂`, the required
`monthlyInvestment` at `a₂` is at most the one at `a₁`; the zero-rate
endpoint is excluded since it takes the division-by-zero path. -/
theorem monthlyInvestment_antitone_in_rate (y : ℤ) (t a₁ a₂ c : ℚ)
    (hy : 0 < y) (ht : 0 < t) (hc : 0 ≤ c) (ha₁ : 0 < a₁) (h₁₂ : a₁ ≤ a₂) :
    monthlyInvestment y t a₂ c ≤ monthlyInvestment y t a₁ c := by
  have hr₁ : 0 < monthlyRate a₁ := monthlyRate_pos ha₁
  have hrr : monthlyRate a₁ ≤ monthlyRate a₂ := monthlyRate_le_monthlyRate h₁₂
  have hpow : (1 + monthlyRate a₁) ^ totalMonthsNat y ≤
      (1 + monthlyRate a₂) ^ totalMonthsNat y :=
    pow_le_pow_left₀ (by linarith) (by linarith) _
  have hremle : remainingAmount y t a₂ c ≤ remainingAmount y t a₁ c := by
    simp only [remainingAmount, futureValueOfInitial]
    nlinarith [mul_le_mul_of_nonneg_left hpow hc]
  by_cases hrem₂ : 0 < remainingAmount y t a₂ c
  · have hrem₁ : 0 < remainingAmount y t a₁ c := lt_of_lt_of_le hrem₂ hremle
    have hA₁ : 0 < annuityFactor (monthlyRate a₁) (totalMonthsNat y) :=
      annuityFactor_pos hr₁ (totalMonthsNat_pos hy)
    have hAA : annuityFactor (monthlyRate a₁) (totalMonthsNat y) ≤
        annuityFactor (monthlyRate a₂) (totalMonthsNat y) :=
      annuityFactor_mono_rate hr₁ hrr _
    rw [monthlyInvestment, if_pos hrem₂, monthlyInvestment, if_pos hrem₁]
    calc remainingAmount y t a₂ c / annuityFactor (monthlyRate a₂) (totalMonthsNat y)
        ≤ remainingAmount y t a₂ c / annuityFactor (monthlyRate a₁) (totalMonthsNat y) :=
          div_le_div_of_nonneg_left hrem₂.le hA₁ hAA
      _ ≤ remainingAmount y t a₁ c / annuityFactor (monthlyRate a₁) (totalMonthsNat y) :=
          (div_le_div_iff_of_pos_right hA₁).mpr hremle
  · rw [monthlyInvestment, if_neg hrem₂]
    exact monthlyInvestment_nonneg ha₁

/-- Witness for the amended C7 with rates `6 ≤ 12` at
`years = 1, targetAmount = 1200, initialCapital = 0`. -/
theorem monthlyInvestment_antitone_probe :
    (0 : ℤ) < 1 ∧ (0 : ℚ) < 1200 ∧ (0 : ℚ) ≤ 0 ∧ (0 : ℚ) < 6 ∧ (6 : ℚ) ≤ 12 ∧
    monthlyInvestment 1 1200 12 0 ≤ monthlyInvestment 1 1200 6 0 :=
  ⟨by norm_num, by norm_num, le_rfl, by norm_num, by norm_num,
   monthlyInvestment_antitone_in_rate 1 1200 6 12 0 (by norm_num) (by norm_num)
     le_rfl (by norm_num) (by norm_num)⟩

/-- Claim C10: with a positive rate, `totalValue` is strictly increasing
along the yearly breakdown: an earlier record's value is strictly below a
later record's. -/
theorem totalValue_strict_increasing (y : ℤ) (t a c : ℚ) (hy : 0 < y)
    (ht : 0 < t) (ha : 0 < a) (hc : 0 ≤ c) (i j : ℕ) (hij : i < j)
    (e₁ e₂ : YearRecord)
    (h₁ : ((computeResult y t a c).yearlyBreakdown)[i]? = some e₁)
    (h₂ : ((computeResult y t a c).yearlyBreakdown)[j]? = some e₂) :
    e₁.totalValue < e₂.totalValue := by
  have hr : 0 < monthlyRate a := monthlyRate_pos ha
  have hg₁ : (yearlyBreakdown y t a c)[i]? = some e₁ := h₁
  have hg₂ : (yearlyBreakdown y t a c)[j]? = some e₂ := h₂
  rw [yearlyBreakdown_getElem] at hg₁ hg₂
  by_cases hjlt : j < y.toNat
  · have hilt : i < y.toNat := lt_trans hij hjlt
    rw [if_pos hilt] at hg₁
    rw [if_pos hjlt] at hg₂
    obtain rfl : yearRecord y t a c (i + 1) = e₁ := by simpa using hg₁
    obtain rfl : yearRecord y t a c (j + 1) = e₂ := by simpa using hg₂
    have hm : (i + 1) * 12 < (j + 1) * 12 := by omega
    have hpow : (1 + monthlyRate a) ^ ((i + 1) * 12) <
        (1 + monthlyRate a) ^ ((j + 1) * 12) :=
      pow_lt_pow_right₀ (by linarith) hm
    have hA : annuityFactor (monthlyRate a) ((i + 1) * 12) <
        annuityFactor (monthlyRate a) ((j + 1) * 12) :=
      annuityFactor_strictMono_months hr hm
    have hP : 0 ≤ monthlyInvestment y t a c := monthlyInvestment_nonneg ha
    show futureValueOfInitial c (monthlyRate a) ((i + 1) * 12) +
        monthlyInvestment y t a c * annuityFactor (monthlyRate a) ((i + 1) * 12) <
      futureValueOfInitial c (monthlyRate a) ((j + 1) * 12) +
        monthlyInvestment y t a c * annuityFactor (monthlyRate a) ((j + 1) * 12)
    unfold futureValueOfInitial
    by_cases hc0 : 0 < c
    · have h1 : c * (1 + monthlyRate a) ^ ((i + 1) * 12) <
          c * (1 + monthlyRate a) ^ ((j + 1) * 12) :=
        (mul_lt_mul_left hc0).mpr hpow
      have h2 : monthlyInvestment y t a c * annuityFactor (monthlyRate a) ((i + 1) * 12) ≤
          monthlyInvestment y t a c * annuityFactor (monthlyRate a) ((j + 1) * 12) :=
        mul_le_mul_of_nonneg_left hA.le hP
      linarith
    · have hceq : c = 0 := le_antisymm (not_lt.mp hc0) hc
      subst hceq
      have hrem : 0 < remainingAmount y t a 0 := by
        simp only [remainingAmount, futureValueOfInitial, zero_mul, sub_zero]
        exact ht
      have hPpos : 0 < monthlyInvestment y t a 0 :=
        monthlyInvestment_pos ha hy hrem
      have h2 : monthlyInvestment y t a 0 * annuityFactor (monthlyRate a) ((i + 1) * 12) <
          monthlyInvestment y t a 0 * annuityFactor (monthlyRate a) ((j + 1) * 12) :=
        (mul_lt_mul_left hPpos).mpr hA
      simpa using h2
  · rw [if_neg hjlt] at hg₂
    exact absurd hg₂ (by simp)

/-- Witness for C10 at `years = 2, targetAmount = 1200, annualReturn = 12,
initialCapital = 0`, comparing the two year records. -/
theorem totalValue_strict_increasing_probe :
    (0 : ℕ) < 1 ∧
    ((computeResult 2 1200 12 0).yearlyBreakdown)[0]? =
      some (yearRecord 2 1200 12 0 1) ∧
    ((computeResult 2 1200 12 0).yearlyBreakdown)[1]? =
      some (yearRecord 2 1200 12 0 2) ∧
    (yearRecord 2 1200 12 0 1).totalValue < (yearRecord 2 1200 12 0 2).totalValue := by
  have hg₁ : ((computeResult 2 1200 12 0).yearlyBreakdown)[0]? =
      some (yearRecord 2 1200 12 0 1) := by
    show (yearlyBreakdown 2 1200 12 0)[0]? = _
    rw [yearlyBreakdown_getElem]
    norm_num
  have hg₂ : ((computeResult 2 1200 12 0).yearlyBreakdown)[1]? =
      some (yearRecord 2 1200 12 0 2) := by
    show (yearlyBreakdown 2 1200 12 0)[1]? = _
    rw [yearlyBreakdown_getElem]
    norm_num
  exact ⟨by norm_num, hg₁, hg₂,
    totalValue_strict_increasing 2 1200 12 0 (by norm_num) (by norm_num) (by norm_num)
      (by norm_num) 0 1 (by norm_num) _ _ hg₁ hg₂⟩

end InvestCalc
